import Mathlib

/-!
Formal model of the expression evaluator of `dan_graphical_calculator.py`.

The Python module evaluates a user-supplied arithmetic expression with
`safe_eval`, which parses the string with `ast.parse(expression, mode="eval")`
and then walks the resulting tree with the inner function `_eval`, permitting
only the operators listed in `_ALLOWED_OPERATORS` (Add, Sub, Mult, Div, Pow,
USub), variable references resolved from a caller-supplied dictionary, and
`int`/`float` constants (which includes `bool`, a subtype of `int`).

The model below embeds:
  * the fragment of Python's expression grammar reachable from the
    calculator's inputs (numbers, identifiers, string literals, `+ - * / **`,
    `^` which is Python's bitwise xor, unary `+`/`-`, parentheses, calls,
    list displays, and the `True`/`False`/`None` keywords);
  * Python's numeric tower as exercised here: arbitrary-precision `int`
    (modelled by `Int`), `float` modelled by exact rationals (the claims only
    exercise values on which double arithmetic is exact), `bool`, and two
    untracked tags `floatX`/`complexX` for float/complex results whose exact
    magnitude is irrational (they arise only from `**` with a fractional
    exponent); what matters for the specification claims about such results
    is their runtime kind, which the tags record;
  * `_eval` both as a pure function and as a state-passing function
    `_evalE` that threads the environment through the recursion exactly as
    the Python closure shares the `variables` dictionary, plus a top level
    `safe_evalSt` that also threads the logger state (`logger.debug` appends
    one line per call before parsing).

Error taxonomy: Python `SyntaxError` from `ast.parse`, `ValueError` raised by
`_eval` (the spec's UnsupportedOperationError / UndefinedVariableError kinds),
and `ZeroDivisionError` raised by `operator.truediv` / `operator.pow`.
Messages are abridged renderings of the Python f-strings.
-/

namespace DanCalc

/-- Constants a parsed Python expression can carry in this fragment
(`ast.Constant` values). -/
inductive PyConst where
  | intc (n : Int)
  | floatc (q : Rat)
  | boolc (b : Bool)
  | strc (s : String)
  | nonec
deriving DecidableEq

/-- Binary operator nodes reachable in this fragment (`ast.Add`, `ast.Sub`,
`ast.Mult`, `ast.Div`, `ast.Pow`, and `ast.BitXor` for the caret). -/
inductive BinOpKind where
  | add
  | sub
  | mult
  | div
  | pow
  | bitXor
deriving DecidableEq

/-- Unary operator nodes (`ast.USub`, `ast.UAdd`). -/
inductive UnOpKind where
  | usub
  | uadd
deriving DecidableEq

/-- The Python AST fragment produced by `ast.parse(_, mode="eval")` on the
calculator's inputs: `ast.BinOp`, `ast.UnaryOp`, `ast.Name`, `ast.Constant`,
`ast.Call`, `ast.List`. -/
inductive PyExpr where
  | binOp (op : BinOpKind) (l r : PyExpr)
  | unaryOp (op : UnOpKind) (e : PyExpr)
  | name (id : String)
  | const (c : PyConst)
  | call (func : PyExpr) (args : List PyExpr)
  | listLit (elts : List PyExpr)

/-- Runtime values `_eval` can return.  `int`, `bool` and exactly-tracked
`float` carry their value; `floatX` / `complexX` tag a float / complex result
of `**` whose magnitude is irrational and hence outside the exact-rational
carrier (only the runtime kind of such values is observable in the claims). -/
inductive PyVal where
  | int (n : Int)
  | bool (b : Bool)
  | float (q : Rat)
  | floatX
  | complexX
deriving DecidableEq

/-- The exceptions that can escape `safe_eval`. -/
inductive PyErr where
  | syntaxError (msg : String)
  | valueError (msg : String)
  | zeroDivisionError (msg : String)
deriving DecidableEq

/-- The `variables` dictionary: variable name to float value. -/
abbrev Env := List (String × Rat)

/-- First-match lookup, the model of `node.id in variables` /
`variables[node.id]`. -/
def lookupVar (id : String) : Env → Option Rat
  | [] => none
  | (k, v) :: rest => if k = id then some v else lookupVar id rest

/-! ## Tokenizer (the lexical fragment of `ast.parse` that these inputs reach) -/

inductive Tok where
  | intTok (n : Nat)
  | floatTok (q : Rat)
  | nameTok (s : String)
  | strTok (s : String)
  | plus
  | minus
  | star
  | slash
  | dstar
  | caret
  | lparen
  | rparen
  | lbrack
  | rbrack
  | comma
  | semi
deriving DecidableEq

/-- Numeric value of a decimal digit character. -/
def dval (c : Char) : Nat := c.toNat - 48

/-- The decimal value of a digit string, most significant digit first. -/
def decVal (ds : List Char) : Nat := ds.foldl (fun a c => 10 * a + dval c) 0

/-- Characters allowed inside an identifier. -/
def identChar (c : Char) : Bool := c.isAlpha || c.isDigit || c == '_'

/-- The single-quote character. -/
def qch : Char := Char.ofNat 39

/-- String-literal delimiters. -/
def isQuote (c : Char) : Bool := c == qch || c == '"'

/-- Tokens made of a single punctuation character. -/
def simpleTok (c : Char) : Option Tok :=
  if c = '+' then some .plus
  else if c = '-' then some .minus
  else if c = '/' then some .slash
  else if c = '^' then some .caret
  else if c = '(' then some .lparen
  else if c = ')' then some .rparen
  else if c = '[' then some .lbrack
  else if c = ']' then some .rbrack
  else if c = ',' then some .comma
  else if c = ';' then some .semi
  else none

/-- Fuel-indexed tokenizer; every step consumes at least one character, so
fuel `length + 1` always suffices. -/
def tokenizeAux : Nat → List Char → Except String (List Tok)
  | _, [] => .ok []
  | 0, _ :: _ => .error "tokenizer fuel exhausted"
  | f + 1, c :: rest =>
    if c.isDigit then
      let ds := (c :: rest).takeWhile Char.isDigit
      let r1 := (c :: rest).dropWhile Char.isDigit
      match r1 with
      | '.' :: r2 =>
        let fs := r2.takeWhile Char.isDigit
        let r3 := r2.dropWhile Char.isDigit
        match tokenizeAux f r3 with
        | .error e => .error e
        | .ok ts =>
          .ok (.floatTok ((decVal ds : Rat) + (decVal fs : Rat) / (10 : Rat) ^ fs.length) :: ts)
      | _ =>
        match tokenizeAux f r1 with
        | .error e => .error e
        | .ok ts => .ok (.intTok (decVal ds) :: ts)
    else if c == ' ' then tokenizeAux f rest
    else if c.isAlpha || c == '_' then
      let nm := String.mk (c :: rest.takeWhile identChar)
      match tokenizeAux f (rest.dropWhile identChar) with
      | .error e => .error e
      | .ok ts => .ok (.nameTok nm :: ts)
    else if isQuote c then
      let body := rest.takeWhile (fun d => d != c)
      match rest.dropWhile (fun d => d != c) with
      | _ :: r2 =>
        match tokenizeAux f r2 with
        | .error e => .error e
        | .ok ts => .ok (.strTok (String.mk body) :: ts)
      | [] => .error "unterminated string literal"
    else if c == '*' then
      match rest with
      | '*' :: r2 =>
        match tokenizeAux f r2 with
        | .error e => .error e
        | .ok ts => .ok (.dstar :: ts)
      | _ =>
        match tokenizeAux f rest with
        | .error e => .error e
        | .ok ts => .ok (.star :: ts)
    else if c == '.' then
      match rest with
      | d :: _ =>
        if d.isDigit then
          let fs := rest.takeWhile Char.isDigit
          match tokenizeAux f (rest.dropWhile Char.isDigit) with
          | .error e => .error e
          | .ok ts => .ok (.floatTok ((decVal fs : Rat) / (10 : Rat) ^ fs.length) :: ts)
        else .error "invalid character"
      | [] => .error "invalid character"
    else
      match simpleTok c with
      | some t =>
        match tokenizeAux f rest with
        | .error e => .error e
        | .ok ts => .ok (t :: ts)
      | none => .error "invalid character"

/-- Tokenize an input string. -/
def tokenize (s : String) : Except String (List Tok) :=
  tokenizeAux (s.data.length + 1) s.data

/-! ## Parser

Recursive descent with Python's precedence over this fragment:
`^` (xor, left-associative) binds loosest, then `+ -`, then `* /`, then
unary `+`/`-`, then `**` (right-associative, its right operand allows a
further unary sign), then atoms with call trailers. -/

mutual

def pXor (fuel : Nat) (ts : List Tok) : Except String (PyExpr × List Tok) :=
  match fuel with
  | 0 => .error "expression too deep"
  | f + 1 =>
    match pArith f ts with
    | .error e => .error e
    | .ok (l, ts1) => pXorLoop f l ts1

def pXorLoop (fuel : Nat) (l : PyExpr) (ts : List Tok) : Except String (PyExpr × List Tok) :=
  match fuel with
  | 0 => .error "expression too deep"
  | f + 1 =>
    match ts with
    | .caret :: ts1 =>
      match pArith f ts1 with
      | .error e => .error e
      | .ok (r, ts2) => pXorLoop f (.binOp .bitXor l r) ts2
    | _ => .ok (l, ts)

def pArith (fuel : Nat) (ts : List Tok) : Except String (PyExpr × List Tok) :=
  match fuel with
  | 0 => .error "expression too deep"
  | f + 1 =>
    match pTerm f ts with
    | .error e => .error e
    | .ok (l, ts1) => pArithLoop f l ts1

def pArithLoop (fuel : Nat) (l : PyExpr) (ts : List Tok) : Except String (PyExpr × List Tok) :=
  match fuel with
  | 0 => .error "expression too deep"
  | f + 1 =>
    match ts with
    | .plus :: ts1 =>
      match pTerm f ts1 with
      | .error e => .error e
      | .ok (r, ts2) => pArithLoop f (.binOp .add l r) ts2
    | .minus :: ts1 =>
      match pTerm f ts1 with
      | .error e => .error e
      | .ok (r, ts2) => pArithLoop f (.binOp .sub l r) ts2
    | _ => .ok (l, ts)

def pTerm (fuel : Nat) (ts : List Tok) : Except String (PyExpr × List Tok) :=
  match fuel with
  | 0 => .error "expression too deep"
  | f + 1 =>
    match pFactor f ts with
    | .error e => .error e
    | .ok (l, ts1) => pTermLoop f l ts1

def pTermLoop (fuel : Nat) (l : PyExpr) (ts : List Tok) : Except String (PyExpr × List Tok) :=
  match fuel with
  | 0 => .error "expression too deep"
  | f + 1 =>
    match ts with
    | .star :: ts1 =>
      match pFactor f ts1 with
      | .error e => .error e
      | .ok (r, ts2) => pTermLoop f (.binOp .mult l r) ts2
    | .slash :: ts1 =>
      match pFactor f ts1 with
      | .error e => .error e
      | .ok (r, ts2) => pTermLoop f (.binOp .div l r) ts2
    | _ => .ok (l, ts)

def pFactor (fuel : Nat) (ts : List Tok) : Except String (PyExpr × List Tok) :=
  match fuel with
  | 0 => .error "expression too deep"
  | f + 1 =>
    match ts with
    | .minus :: ts1 =>
      match pFactor f ts1 with
      | .error e => .error e
      | .ok (e, ts2) => .ok (.unaryOp .usub e, ts2)
    | .plus :: ts1 =>
      match pFactor f ts1 with
      | .error e => .error e
      | .ok (e, ts2) => .ok (.unaryOp .uadd e, ts2)
    | _ => pPower f ts

def pPower (fuel : Nat) (ts : List Tok) : Except String (PyExpr × List Tok) :=
  match fuel with
  | 0 => .error "expression too deep"
  | f + 1 =>
    match pAtomT f ts with
    | .error e => .error e
    | .ok (a, ts1) =>
      match ts1 with
      | .dstar :: ts2 =>
        match pFactor f ts2 with
        | .error e => .error e
        | .ok (r, ts3) => .ok (.binOp .pow a r, ts3)
      | _ => .ok (a, ts1)

def pAtomT (fuel : Nat) (ts : List Tok) : Except String (PyExpr × List Tok) :=
  match fuel with
  | 0 => .error "expression too deep"
  | f + 1 =>
    match pAtom f ts with
    | .error e => .error e
    | .ok (a, ts1) => pTrailerLoop f a ts1

def pTrailerLoop (fuel : Nat) (a : PyExpr) (ts : List Tok) : Except String (PyExpr × List Tok) :=
  match fuel with
  | 0 => .error "expression too deep"
  | f + 1 =>
    match ts with
    | .lparen :: ts1 =>
      match pElems f .rparen ts1 with
      | .error e => .error e
      | .ok (args, ts2) => pTrailerLoop f (.call a args) ts2
    | _ => .ok (a, ts)

def pElems (fuel : Nat) (close : Tok) (ts : List Tok) : Except String (List PyExpr × List Tok) :=
  match fuel with
  | 0 => .error "expression too deep"
  | f + 1 =>
    match ts with
    | [] => .error "unexpected end of input"
    | t :: ts1 =>
      if t = close then .ok ([], ts1)
      else
        match pXor f ts with
        | .error e => .error e
        | .ok (e, ts2) =>
          match ts2 with
          | .comma :: ts3 =>
            match pElems f close ts3 with
            | .error er => .error er
            | .ok (es, ts4) => .ok (e :: es, ts4)
          | t2 :: ts3 =>
            if t2 = close then .ok ([e], ts3) else .error "invalid syntax"
          | [] => .error "unexpected end of input"

def pAtom (fuel : Nat) (ts : List Tok) : Except String (PyExpr × List Tok) :=
  match fuel with
  | 0 => .error "expression too deep"
  | f + 1 =>
    match ts with
    | .intTok n :: r => .ok (.const (.intc n), r)
    | .floatTok q :: r => .ok (.const (.floatc q), r)
    | .strTok s :: r => .ok (.const (.strc s), r)
    | .nameTok s :: r =>
      if s = "True" then .ok (.const (.boolc true), r)
      else if s = "False" then .ok (.const (.boolc false), r)
      else if s = "None" then .ok (.const .nonec, r)
      else .ok (.name s, r)
    | .lparen :: r =>
      match pXor f r with
      | .error e => .error e
      | .ok (e, ts1) =>
        match ts1 with
        | .rparen :: ts2 => .ok (e, ts2)
        | _ => .error "invalid syntax"
    | .lbrack :: r =>
      match pElems f .rbrack r with
      | .error e => .error e
      | .ok (es, ts1) => .ok (.listLit es, ts1)
    | _ => .error "invalid syntax"

end

/-- Parse a complete token stream in `eval` mode: a single expression
followed by end of input (this is what rejects `1; 2`). -/
def parseToks (ts : List Tok) : Except String PyExpr :=
  match pXor (8 * ts.length + 8) ts with
  | .error e => .error e
  | .ok (e, []) => .ok e
  | .ok (_, _ :: _) => .error "invalid syntax"

/-- The model of `ast.parse(expression, mode="eval")`, yielding the `body`
of the `ast.Expression`. -/
def parseExpr (s : String) : Except String PyExpr :=
  match tokenize s with
  | .error e => .error e
  | .ok ts => parseToks ts

/-! ## Numeric semantics of the allowed operators

`operator.add/sub/mul/truediv/pow/neg` on the value kinds that can flow
through `_eval`.  Python promotes `bool` to `int`, any `float` operand makes
the result `float`, `truediv` always yields `float` and raises
`ZeroDivisionError` on a zero divisor, and a negative base under `**` with a
non-integral exponent yields a `complex` value. -/

/-- Numeric value of a Python `bool` (`True == 1`, `False == 0`). -/
def bval (b : Bool) : Int := if b then 1 else 0

/-- The `int` value of an int-like operand (`int` or `bool`). -/
def toZ : PyVal → Option Int
  | .int n => some n
  | .bool b => some (bval b)
  | _ => none

/-- The exact rational value of a tracked numeric operand. -/
def toQ : PyVal → Option Rat
  | .int n => some n
  | .bool b => some (bval b)
  | .float q => some q
  | _ => none

/-- Total rational view used after classification (junk on untracked tags,
which classification never lets through). -/
def qval : PyVal → Rat
  | .int n => n
  | .bool b => bval b
  | .float q => q
  | _ => 0

def isComplexV : PyVal → Bool
  | .complexX => true
  | _ => false

def isFloatXV : PyVal → Bool
  | .floatX => true
  | _ => false

/-- Is the value a Python `float`? -/
def isFloatV : PyVal → Bool
  | .float _ => true
  | .floatX => true
  | _ => false

def isIntLike : PyVal → Bool
  | .int _ => true
  | .bool _ => true
  | _ => false

/-- Kind classification of a pair of operands, mirroring Python's numeric
promotion: complex dominates, then untracked float, then pure `int`
arithmetic, otherwise exact `float` arithmetic. -/
inductive OpKind where
  | cx
  | fx
  | ints (x y : Int)
  | rats (x y : Rat)

def classify (a b : PyVal) : OpKind :=
  if isComplexV a || isComplexV b then .cx
  else if isFloatXV a || isFloatXV b then .fx
  else
    match toZ a, toZ b with
    | some x, some y => .ints x y
    | _, _ => .rats (qval a) (qval b)

/-- `operator.add`. -/
def pyAdd (a b : PyVal) : Except PyErr PyVal :=
  match classify a b with
  | .cx => .ok .complexX
  | .fx => .ok .floatX
  | .ints x y => .ok (.int (x + y))
  | .rats x y => .ok (.float (x + y))

/-- `operator.sub`. -/
def pySub (a b : PyVal) : Except PyErr PyVal :=
  match classify a b with
  | .cx => .ok .complexX
  | .fx => .ok .floatX
  | .ints x y => .ok (.int (x - y))
  | .rats x y => .ok (.float (x - y))

/-- `operator.mul`. -/
def pyMul (a b : PyVal) : Except PyErr PyVal :=
  match classify a b with
  | .cx => .ok .complexX
  | .fx => .ok .floatX
  | .ints x y => .ok (.int (x * y))
  | .rats x y => .ok (.float (x * y))

/-- The `ZeroDivisionError` message `operator.truediv` produces for these
operand kinds. -/
def zdMsg (a b : PyVal) : String :=
  if isComplexV a || isComplexV b then "complex division by zero"
  else if isIntLike a && isIntLike b then "division by zero"
  else "float division by zero"

/-- `operator.truediv`: always a `float` result, `ZeroDivisionError` on a
zero divisor. -/
def pyDiv (a b : PyVal) : Except PyErr PyVal :=
  match toQ b with
  | some y =>
    if y = 0 then .error (.zeroDivisionError (zdMsg a b))
    else
      match classify a b with
      | .cx => .ok .complexX
      | .fx => .ok .floatX
      | .ints x _ => .ok (.float ((x : Rat) / y))
      | .rats x _ => .ok (.float (x / y))
  | none =>
    match classify a b with
    | .cx => .ok .complexX
    | _ => .ok .floatX

/-- `operator.pow`.  Integer operands keep exact `int`/`float` semantics;
a zero base with a negative exponent raises `ZeroDivisionError`; a negative
base with a fractional exponent returns a `complex` value (Python 3
semantics); a positive base with a fractional exponent is a `float` whose
magnitude is irrational in general, tagged `floatX`. -/
def pyPow (a b : PyVal) : Except PyErr PyVal :=
  if isComplexV a then .ok .complexX
  else if isComplexV b then
    if toQ a = some 0 then .error (.zeroDivisionError "zero to a negative or complex power")
    else .ok .complexX
  else if isFloatXV a then .ok .floatX
  else if isFloatXV b then
    match toQ a with
    | some x => if x < 0 then .ok .complexX else .ok .floatX
    | none => .ok .floatX
  else
    match toZ a, toZ b with
    | some x, some y =>
      if 0 ≤ y then .ok (.int (x ^ y.toNat))
      else if x = 0 then .error (.zeroDivisionError "zero cannot be raised to a negative power")
      else .ok (.float ((x : Rat) ^ y))
    | _, _ =>
      let x := qval a
      let y := qval b
      if y.den = 1 then
        if x = 0 then
          if y.num < 0 then .error (.zeroDivisionError "zero cannot be raised to a negative power")
          else .ok (.float ((0 : Rat) ^ y.num.toNat))
        else .ok (.float (x ^ y.num))
      else if x < 0 then .ok .complexX
      else if x = 0 then
        if y < 0 then .error (.zeroDivisionError "zero cannot be raised to a negative power")
        else .ok (.float 0)
      else .ok .floatX

/-- `operator.neg`. -/
def pyNeg : PyVal → PyVal
  | .int n => .int (-n)
  | .bool b => .int (-(bval b))
  | .float q => .float (-q)
  | .floatX => .floatX
  | .complexX => .complexX

/-- The binary-operator part of `_ALLOWED_OPERATORS`: `ast.Add ↦
operator.add`, `ast.Sub ↦ operator.sub`, `ast.Mult ↦ operator.mul`,
`ast.Div ↦ operator.truediv`, `ast.Pow ↦ operator.pow`; `ast.BitXor` is not
a key of the dictionary. -/
def _ALLOWED_OPERATORS_binary : BinOpKind → Option (PyVal → PyVal → Except PyErr PyVal)
  | .add => some pyAdd
  | .sub => some pySub
  | .mult => some pyMul
  | .div => some pyDiv
  | .pow => some pyPow
  | .bitXor => none

/-- The unary-operator part of `_ALLOWED_OPERATORS`: `ast.USub ↦
operator.neg`; `ast.UAdd` is not a key of the dictionary. -/
def _ALLOWED_OPERATORS_unary : UnOpKind → Option (PyVal → Except PyErr PyVal)
  | .usub => some (fun v => .ok (pyNeg v))
  | .uadd => none

/-- Printable name of a binary operator node, used in the
`"Operator ... is not allowed"` message. -/
def binOpName : BinOpKind → String
  | .add => "Add"
  | .sub => "Sub"
  | .mult => "Mult"
  | .div => "Div"
  | .pow => "Pow"
  | .bitXor => "BitXor"

def unOpName : UnOpKind → String
  | .usub => "USub"
  | .uadd => "UAdd"

/-! ## The evaluator `_eval` -/

/-- The inner function `_eval` of `safe_eval`: checks the operator against
`_ALLOWED_OPERATORS`, evaluates operands left to right, resolves names from
`variables`, returns `int`/`float` (hence also `bool`) constants, and raises
`ValueError` on everything else. -/
def _eval : PyExpr → Env → Except PyErr PyVal
  | .binOp op l r, env =>
    match _ALLOWED_OPERATORS_binary op with
    | some f =>
      match _eval l env with
      | .error e => .error e
      | .ok lv =>
        match _eval r env with
        | .error e => .error e
        | .ok rv => f lv rv
    | none => .error (.valueError ("Operator " ++ binOpName op ++ " is not allowed"))
  | .unaryOp op e, env =>
    match _ALLOWED_OPERATORS_unary op with
    | some f =>
      match _eval e env with
      | .error er => .error er
      | .ok v => f v
    | none => .error (.valueError ("Unary operator " ++ unOpName op ++ " is not allowed"))
  | .name id, env =>
    match lookupVar id env with
    | some v => .ok (.float v)
    | none => .error (.valueError ("Use of undefined variable " ++ id))
  | .const c, _ =>
    match c with
    | .intc n => .ok (.int n)
    | .floatc q => .ok (.float q)
    | .boolc b => .ok (.bool b)
    | _ => .error (.valueError "Unsupported expression element")
  | .call _ _, _ => .error (.valueError "Unsupported expression element")
  | .listLit _, _ => .error (.valueError "Unsupported expression element")

/-- `safe_eval`: parse in eval mode, then run `_eval` on the body against
the caller's variable dictionary (`None` defaulting to `{}` is modelled by
the `[]` default). -/
def safe_eval (expression : String) (vars : Env := []) : Except PyErr PyVal :=
  match parseExpr expression with
  | .error msg => .error (.syntaxError msg)
  | .ok e => _eval e vars

/-! ## State-passing refinement

`_evalE` threads the `variables` dictionary through the recursion the way
the Python closure shares one dictionary object across all recursive calls;
`safe_evalSt` additionally threads the logger's sink, to which `safe_eval`
appends one debug line per call before parsing. -/

def _evalE : PyExpr → Env → Except PyErr PyVal × Env
  | .binOp op l r, env =>
    match _ALLOWED_OPERATORS_binary op with
    | some f =>
      match _evalE l env with
      | (.error e, env1) => (.error e, env1)
      | (.ok lv, env1) =>
        match _evalE r env1 with
        | (.error e, env2) => (.error e, env2)
        | (.ok rv, env2) => (f lv rv, env2)
    | none => (.error (.valueError ("Operator " ++ binOpName op ++ " is not allowed")), env)
  | .unaryOp op e, env =>
    match _ALLOWED_OPERATORS_unary op with
    | some f =>
      match _evalE e env with
      | (.error er, env1) => (.error er, env1)
      | (.ok v, env1) => (f v, env1)
    | none => (.error (.valueError ("Unary operator " ++ unOpName op ++ " is not allowed")), env)
  | .name id, env =>
    match lookupVar id env with
    | some v => (.ok (.float v), env)
    | none => (.error (.valueError ("Use of undefined variable " ++ id)), env)
  | .const c, env =>
    match c with
    | .intc n => (.ok (.int n), env)
    | .floatc q => (.ok (.float q), env)
    | .boolc b => (.ok (.bool b), env)
    | _ => (.error (.valueError "Unsupported expression element"), env)
  | .call _ _, env => (.error (.valueError "Unsupported expression element"), env)
  | .listLit _, env => (.error (.valueError "Unsupported expression element"), env)

/-- The debug line `safe_eval` logs before parsing. -/
def debugLine (expression : String) : String :=
  "Evaluating expression: " ++ expression

/-- `safe_eval` with the caller's dictionary and the logger sink made
explicit: returns the result, the dictionary after the call, and the log
after the call. -/
def safe_evalSt (expression : String) (vars : Env) (log : List String) :
    Except PyErr PyVal × Env × List String :=
  let log1 := log ++ [debugLine expression]
  match parseExpr expression with
  | .error msg => (.error (.syntaxError msg), vars, log1)
  | .ok e =>
    match _evalE e vars with
    | (r, env1) => (r, env1, log1)

/-! ## Structural whitelist predicate and result classifiers -/

/-- An AST consists only of nodes `_eval` can reduce: whitelisted binary and
unary operators, names, and `int`/`float`/`bool` constants. -/
def allowedExpr : PyExpr → Bool
  | .binOp op l r => (_ALLOWED_OPERATORS_binary op).isSome && allowedExpr l && allowedExpr r
  | .unaryOp op e => (_ALLOWED_OPERATORS_unary op).isSome && allowedExpr e
  | .name _ => true
  | .const (.intc _) => true
  | .const (.floatc _) => true
  | .const (.boolc _) => true
  | .const _ => false
  | .call _ _ => false
  | .listLit _ => false

/-- Did the evaluation return a value (as opposed to raising)? -/
def isOkE : Except PyErr PyVal → Bool
  | .ok _ => true
  | .error _ => false

/-- Did the evaluation raise `ZeroDivisionError`? -/
def isZDE : Except PyErr PyVal → Bool
  | .error (.zeroDivisionError _) => true
  | _ => false

/-! ## The string rendering `str(v)` of numeric literal values

Python renders a non-negative `int` as its decimal digits, and a `float`
whose value is a finite decimal in the plain-format range
(`0`, or `1e-4 ≤ v < 1e16`) as `integer part`, `.`, `fractional digits with
no trailing zero` (at least one fractional digit, so `str(4.0) = "4.0"`).
Values outside that range use exponent notation and sit outside this model
of `str`. -/

/-- The character of a decimal digit. -/
def digitChar (d : Nat) : Char := Char.ofNat (48 + d)

/-- Little-endian base-10 digits, fuel-indexed so that it evaluates inside
the kernel; fuel `n` suffices (proved equal to `Nat.digits 10` below). -/
def digitsF : Nat → Nat → List Nat
  | 0, _ => []
  | f + 1, n => if n = 0 then [] else n % 10 :: digitsF f (n / 10)

/-- Decimal digit characters of a natural number, most significant first
(`"0"` for zero). -/
def digitsOf (n : Nat) : List Char :=
  if n = 0 then [digitChar 0] else (digitsF n n).reverse.map digitChar

/-- A run of `'0'` characters. -/
def padZeros (z : Nat) : List Char := List.replicate z (digitChar 0)

/-- Divide out factors of `p`: `stripP p fuel n = (a, r)` with
`n = p ^ a * r`.  Fuel `n` suffices to reach a residue not divisible by
`p` whenever `2 ≤ p`. -/
def stripP (p : Nat) : Nat → Nat → Nat × Nat
  | 0, n => (0, n)
  | f + 1, n =>
    if p ∣ n ∧ n ≠ 0 then
      let r := stripP p f (n / p)
      (r.1 + 1, r.2)
    else (0, n)

/-- `str(v)` for a `float` value: `some` of the plain decimal rendering when
the value is a non-negative finite decimal in the plain-format range, `none`
otherwise. -/
def floatStr (q : Rat) : Option String :=
  if q < 0 then none
  else if ¬(q = 0 ∨ ((1 : Rat) / 10000 ≤ q ∧ q < 10 ^ 16)) then none
  else
    let s2 := stripP 2 q.den q.den
    let s5 := stripP 5 s2.2 s2.2
    if s5.2 = 1 then
      let k := max (max s2.1 s5.1) 1
      let N := q.num.toNat * (10 ^ k / q.den)
      let I := N / 10 ^ k
      let F := N % 10 ^ k
      some (String.mk (digitsOf I ++ '.' :: (padZeros (k - (digitsOf F).length) ++ digitsOf F)))
    else none

/-- `str(v)` for the numeric literal values the Python grammar can denote
(`int` and `float` literals are unsigned; `float` renderings are modelled in
the plain-format range). -/
def litStr : PyVal → Option String
  | .int n => if 0 ≤ n then some (String.mk (digitsOf n.toNat)) else none
  | .float q => floatStr q
  | _ => none

/-- The rejected-construct input `__import__('os')` (spelled with
`Char.ofNat 39` quotes). -/
def impStr : String :=
  "__import__(" ++ String.singleton qch ++ "os" ++ String.singleton qch ++ ")"

/-! ## Helper lemmas on digit strings and the tokenizer -/

theorem digitsF_eq (f : Nat) : ∀ n : Nat, n ≤ f → digitsF f n = Nat.digits 10 n := by
  induction f with
  | zero =>
    intro n h
    have h0 : n = 0 := Nat.le_zero.mp h
    subst h0
    simp [digitsF]
  | succ m ih =>
    intro n h
    by_cases h0 : n = 0
    · subst h0; simp [digitsF]
    · have hpos : 0 < n := Nat.pos_of_ne_zero h0
      have hdiv : n / 10 ≤ m := by
        have := Nat.div_lt_self hpos (by norm_num : (1 : Nat) < 10)
        omega
      rw [digitsF, if_neg h0, ih (n / 10) hdiv,
        Nat.digits_def' (by norm_num : (1 : Nat) < 10) hpos]

theorem dval_digitChar {d : Nat} (h : d < 10) : dval (digitChar d) = d := by
  interval_cases d <;> decide

theorem isDigit_digitChar {d : Nat} (h : d < 10) : (digitChar d).isDigit = true := by
  interval_cases d <;> decide

theorem decVal_foldl (l : List Nat) (h : ∀ d ∈ l, d < 10) (acc : Nat) :
    (l.reverse.map digitChar).foldl (fun a c => 10 * a + dval c) acc
      = acc * 10 ^ l.length + Nat.ofDigits 10 l := by
  induction l generalizing acc with
  | nil => simp [Nat.ofDigits]
  | cons d t ih =>
    have hd : d < 10 := h d (List.mem_cons_self d t)
    have ht : ∀ x ∈ t, x < 10 := fun x hx => h x (List.mem_cons_of_mem d hx)
    simp only [List.reverse_cons, List.map_append, List.map_cons, List.map_nil,
      List.foldl_append, List.foldl_cons, List.foldl_nil]
    rw [ih ht acc, dval_digitChar hd]
    have : Nat.ofDigits 10 (d :: t) = d + 10 * Nat.ofDigits 10 t := by
      simpa using @Nat.ofDigits_cons 10 d t
    rw [this, List.length_cons, pow_succ]
    ring

theorem decVal_digitsOf (n : Nat) : decVal (digitsOf n) = n := by
  by_cases h : n = 0
  · subst h; decide
  · unfold digitsOf decVal
    rw [if_neg h, digitsF_eq n n le_rfl,
      decVal_foldl _ (fun d hd => Nat.digits_lt_base (by norm_num) hd) 0,
      Nat.ofDigits_digits]
    ring

theorem digitsOf_isDigit (n : Nat) : ∀ c ∈ digitsOf n, c.isDigit = true := by
  intro c hc
  unfold digitsOf at hc
  by_cases h : n = 0
  · rw [if_pos h] at hc
    simp only [List.mem_singleton] at hc
    subst hc; decide
  · rw [if_neg h, digitsF_eq n n le_rfl] at hc
    simp only [List.mem_map, List.mem_reverse] at hc
    obtain ⟨d, hd, rfl⟩ := hc
    exact isDigit_digitChar (Nat.digits_lt_base (by norm_num) hd)

theorem digitsOf_ne_nil (n : Nat) : digitsOf n ≠ [] := by
  unfold digitsOf
  by_cases h : n = 0
  · simp [h]
  · rw [if_neg h, digitsF_eq n n le_rfl]
    simp [Nat.digits_ne_nil_iff_ne_zero.mpr h]

theorem digitsOf_length_le {n k : Nat} (hk : 1 ≤ k) (h : n < 10 ^ k) :
    (digitsOf n).length ≤ k := by
  unfold digitsOf
  by_cases h0 : n = 0
  · rw [if_pos h0]; simpa using hk
  · rw [if_neg h0, digitsF_eq n n le_rfl]
    simp only [List.length_map, List.length_reverse]
    by_contra hlt
    push_neg at hlt
    have h1 : 10 ^ (Nat.digits 10 n).length ≤ 10 * n :=
      Nat.base_pow_length_digits_le 10 n (by norm_num) h0
    have h2 : 10 ^ (k + 1) ≤ 10 ^ (Nat.digits 10 n).length :=
      Nat.pow_le_pow_right (by norm_num) hlt
    have h3 : 10 ^ k * 10 ≤ n * 10 := by
      calc 10 ^ k * 10 = 10 ^ (k + 1) := (pow_succ 10 k).symm
      _ ≤ 10 * n := le_trans h2 h1
      _ = n * 10 := Nat.mul_comm 10 n
    have h4 : 10 ^ k ≤ n := Nat.le_of_mul_le_mul_right h3 (by norm_num)
    omega

theorem takeWhile_all {p : Char → Bool} (l : List Char) (h : ∀ c ∈ l, p c = true) :
    l.takeWhile p = l := by
  induction l with
  | nil => rfl
  | cons a t ih =>
    rw [List.takeWhile_cons, if_pos (h a (List.mem_cons_self a t))]
    rw [ih (fun c hc => h c (List.mem_cons_of_mem a hc))]

theorem dropWhile_all {p : Char → Bool} (l : List Char) (h : ∀ c ∈ l, p c = true) :
    l.dropWhile p = [] := by
  induction l with
  | nil => rfl
  | cons a t ih =>
    rw [List.dropWhile_cons, if_pos (h a (List.mem_cons_self a t))]
    exact ih (fun c hc => h c (List.mem_cons_of_mem a hc))

theorem takeWhile_append_all {p : Char → Bool} (l rest : List Char)
    (h : ∀ c ∈ l, p c = true) :
    (l ++ rest).takeWhile p = l ++ rest.takeWhile p := by
  induction l with
  | nil => rfl
  | cons a t ih =>
    rw [List.cons_append, List.takeWhile_cons, if_pos (h a (List.mem_cons_self a t)),
      ih (fun c hc => h c (List.mem_cons_of_mem a hc))]
    simp

theorem dropWhile_append_all {p : Char → Bool} (l rest : List Char)
    (h : ∀ c ∈ l, p c = true) :
    (l ++ rest).dropWhile p = rest.dropWhile p := by
  induction l with
  | nil => rfl
  | cons a t ih =>
    rw [List.cons_append, List.dropWhile_cons, if_pos (h a (List.mem_cons_self a t))]
    exact ih (fun c hc => h c (List.mem_cons_of_mem a hc))

theorem padZeros_isDigit (z : Nat) : ∀ c ∈ padZeros z, c.isDigit = true := by
  intro c hc
  obtain ⟨-, rfl⟩ := List.mem_replicate.mp hc
  decide

theorem foldl_padZeros (z : Nat) (l : List Char) :
    (padZeros z ++ l).foldl (fun a c => 10 * a + dval c) 0
      = l.foldl (fun a c => 10 * a + dval c) 0 := by
  induction z with
  | zero => rfl
  | succ m ih =>
    have h0 : dval (digitChar 0) = 0 := by decide
    rw [padZeros, List.replicate_succ, List.cons_append, List.foldl_cons]
    simpa [h0] using ih

theorem decVal_pad (z F : Nat) : decVal (padZeros z ++ digitsOf F) = F := by
  unfold decVal
  rw [foldl_padZeros]
  exact decVal_digitsOf F

theorem digitsOf_cons (n : Nat) : ∃ c cs, digitsOf n = c :: cs := by
  cases h : digitsOf n with
  | nil => exact absurd h (digitsOf_ne_nil n)
  | cons c cs => exact ⟨c, cs, rfl⟩

theorem tokenizeAux_digitsOnly (fuel n : Nat) :
    tokenizeAux (fuel + 1) (digitsOf n) = .ok [.intTok n] := by
  obtain ⟨c, cs, hcons⟩ := digitsOf_cons n
  have hall := digitsOf_isDigit n
  have hc : c.isDigit = true := hall c (by rw [hcons]; exact List.mem_cons_self c cs)
  have htake : (c :: cs).takeWhile Char.isDigit = c :: cs := by
    rw [← hcons]; exact takeWhile_all _ hall
  have hdrop : (c :: cs).dropWhile Char.isDigit = [] := by
    rw [← hcons]; exact dropWhile_all _ hall
  have hdec : decVal (c :: cs) = n := by rw [← hcons]; exact decVal_digitsOf n
  rw [hcons]
  simp [tokenizeAux, hc, htake, hdrop, hdec]

theorem tokenizeAux_floatLit (fuel I F k : Nat) (hk : 1 ≤ k) (hF : F < 10 ^ k) :
    tokenizeAux (fuel + 1)
      (digitsOf I ++ '.' :: (padZeros (k - (digitsOf F).length) ++ digitsOf F))
      = .ok [.floatTok ((I : Rat) + (F : Rat) / (10 : Rat) ^ k)] := by
  obtain ⟨c, cs, hcons⟩ := digitsOf_cons I
  have hallI := digitsOf_isDigit I
  have hc : c.isDigit = true := hallI c (by rw [hcons]; exact List.mem_cons_self c cs)
  have hdot : ('.' : Char).isDigit = false := by decide
  have hallf : ∀ x ∈ padZeros (k - (digitsOf F).length) ++ digitsOf F, x.isDigit = true := by
    intro x hx
    rcases List.mem_append.mp hx with hx | hx
    · exact padZeros_isDigit _ x hx
    · exact digitsOf_isDigit F x hx
  have hlen : (padZeros (k - (digitsOf F).length) ++ digitsOf F).length = k := by
    rw [List.length_append, padZeros, List.length_replicate]
    have := digitsOf_length_le hk hF
    omega
  have htake : (digitsOf I ++ '.' :: (padZeros (k - (digitsOf F).length) ++ digitsOf F)).takeWhile
      Char.isDigit = digitsOf I := by
    rw [takeWhile_append_all _ _ hallI, List.takeWhile_cons, if_neg (by simp [hdot])]
    simp
  have hdrop : (digitsOf I ++ '.' :: (padZeros (k - (digitsOf F).length) ++ digitsOf F)).dropWhile
      Char.isDigit = '.' :: (padZeros (k - (digitsOf F).length) ++ digitsOf F) := by
    rw [dropWhile_append_all _ _ hallI, List.dropWhile_cons, if_neg (by simp [hdot])]
  have htakef : (padZeros (k - (digitsOf F).length) ++ digitsOf F).takeWhile Char.isDigit
      = padZeros (k - (digitsOf F).length) ++ digitsOf F := takeWhile_all _ hallf
  have hdropf : (padZeros (k - (digitsOf F).length) ++ digitsOf F).dropWhile Char.isDigit
      = [] := dropWhile_all _ hallf
  have hdecF : decVal (padZeros (k - (digitsOf F).length) ++ digitsOf F) = F := decVal_pad _ F
  have hsplit : digitsOf I ++ '.' :: (padZeros (k - (digitsOf F).length) ++ digitsOf F)
      = c :: (cs ++ '.' :: (padZeros (k - (digitsOf F).length) ++ digitsOf F)) := by
    rw [hcons]; rfl
  have htake2 : (c :: (cs ++ '.' :: (padZeros (k - (digitsOf F).length) ++ digitsOf F))).takeWhile
      Char.isDigit = c :: cs := by
    rw [← hsplit, htake, hcons]
  have hdrop2 : (c :: (cs ++ '.' :: (padZeros (k - (digitsOf F).length) ++ digitsOf F))).dropWhile
      Char.isDigit = '.' :: (padZeros (k - (digitsOf F).length) ++ digitsOf F) := by
    rw [← hsplit, hdrop]
  have hdecI : decVal (c :: cs) = I := by rw [← hcons]; exact decVal_digitsOf I
  rw [hsplit]
  simp [tokenizeAux, hc, htake2, hdrop2, htakef, hdropf, hdecI, hdecF, hlen]

theorem tokenize_mk (l : List Char) : tokenize (String.mk l) = tokenizeAux (l.length + 1) l :=
  rfl

theorem parseToks_intTok (n : Nat) : parseToks [Tok.intTok n] = .ok (.const (.intc (n : Int))) :=
  rfl

theorem parseToks_floatTok (q : Rat) : parseToks [Tok.floatTok q] = .ok (.const (.floatc q)) :=
  rfl

theorem stripP_prod (p : Nat) : ∀ (f n : Nat), n = p ^ (stripP p f n).1 * (stripP p f n).2
  | 0, n => by simp [stripP]
  | f + 1, n => by
    unfold stripP
    split
    case isTrue h =>
      have ih := stripP_prod p f (n / p)
      calc n = p * (n / p) := (Nat.mul_div_cancel' h.1).symm
      _ = p * (p ^ (stripP p f (n / p)).1 * (stripP p f (n / p)).2) := by rw [← ih]
      _ = p ^ ((stripP p f (n / p)).1 + 1) * (stripP p f (n / p)).2 := by ring
    case isFalse h => simp

/-! ## The state-passing evaluator agrees with the pure one -/

theorem evalE_eq : ∀ (e : PyExpr) (env : Env), _evalE e env = (_eval e env, env)
  | .binOp op l r, env => by
    cases hop : _ALLOWED_OPERATORS_binary op with
    | none => simp [_evalE, _eval, hop]
    | some fop =>
      have hl := evalE_eq l env
      have hr := evalE_eq r env
      simp only [_evalE, _eval, hop, hl]
      cases _eval l env with
      | error e1 => simp
      | ok lv =>
        simp only [hr]
        cases _eval r env <;> simp
  | .unaryOp op e, env => by
    cases hop : _ALLOWED_OPERATORS_unary op with
    | none => simp [_evalE, _eval, hop]
    | some fop =>
      have he := evalE_eq e env
      simp only [_evalE, _eval, hop, he]
      cases _eval e env <;> simp
  | .name id, env => by
    cases h : lookupVar id env <;> simp [_evalE, _eval, h]
  | .const c, env => by
    cases c <;> simp [_evalE, _eval]
  | .call f args, env => by simp [_evalE, _eval]
  | .listLit elts, env => by simp [_evalE, _eval]

/-! ## Disallowed trees never evaluate to a value -/

theorem eval_disallowed : ∀ (e : PyExpr) (env : Env),
    allowedExpr e = false → isOkE (_eval e env) = false
  | .binOp op l r, env => by
    intro h
    cases hop : _ALLOWED_OPERATORS_binary op with
    | none => simp [_eval, hop, isOkE]
    | some fop =>
      cases bl : allowedExpr l with
      | false =>
        have hl := eval_disallowed l env bl
        cases hev : _eval l env with
        | error er => simp [_eval, hop, hev, isOkE]
        | ok v => rw [hev] at hl; simp [isOkE] at hl
      | true =>
        cases br : allowedExpr r with
        | true => simp [allowedExpr, hop, bl, br] at h
        | false =>
          have hr := eval_disallowed r env br
          cases hevl : _eval l env with
          | error er => simp [_eval, hop, hevl, isOkE]
          | ok lv =>
            cases hevr : _eval r env with
            | error er => simp [_eval, hop, hevl, hevr, isOkE]
            | ok rv => rw [hevr] at hr; simp [isOkE] at hr
  | .unaryOp op e, env => by
    intro h
    cases hop : _ALLOWED_OPERATORS_unary op with
    | none => simp [_eval, hop, isOkE]
    | some fop =>
      cases be : allowedExpr e with
      | true => simp [allowedExpr, hop, be] at h
      | false =>
        have he := eval_disallowed e env be
        cases hev : _eval e env with
        | error er => simp [_eval, hop, hev, isOkE]
        | ok v => rw [hev] at he; simp [isOkE] at he
  | .name id, env => by
    intro h
    simp [allowedExpr] at h
  | .const c, env => by
    intro h
    cases c <;> simp [allowedExpr] at h <;> simp [_eval, isOkE]
  | .call f args, env => by
    intro _
    simp [_eval, isOkE]
  | .listLit elts, env => by
    intro _
    simp [_eval, isOkE]

theorem safe_evalSt_fst (s : String) (env : Env) (log : List String) :
    (safe_evalSt s env log).1 = safe_eval s env := by
  unfold safe_evalSt safe_eval
  cases h : parseExpr s with
  | error m => rfl
  | ok e => simp [evalE_eq e env]

theorem safe_evalSt_env (s : String) (env : Env) (log : List String) :
    (safe_evalSt s env log).2.1 = env := by
  unfold safe_evalSt
  cases h : parseExpr s with
  | error m => rfl
  | ok e => simp [evalE_eq e env]

/-! ## Round trip of rendered numeric literals -/

theorem safe_eval_decimal (q : Rat) (k : Nat) (hk : 1 ≤ k) (hq0 : 0 ≤ q)
    (hdvd : q.den ∣ 10 ^ k) :
    safe_eval (String.mk (digitsOf (q.num.toNat * (10 ^ k / q.den) / 10 ^ k) ++ '.' ::
      (padZeros (k - (digitsOf (q.num.toNat * (10 ^ k / q.den) % 10 ^ k)).length) ++
        digitsOf (q.num.toNat * (10 ^ k / q.den) % 10 ^ k)))) [] = .ok (.float q) := by
  set N := q.num.toNat * (10 ^ k / q.den) with hN
  have hpow : 0 < 10 ^ k := Nat.pow_pos (by norm_num)
  have hF : N % 10 ^ k < 10 ^ k := Nat.mod_lt _ hpow
  have hden0 : ((q.den : Rat)) ≠ 0 := Nat.cast_ne_zero.mpr q.den_ne_zero
  have hnum0 : 0 ≤ q.num := Rat.num_nonneg.mpr hq0
  have hq : (q.num : Rat) = q * q.den := by
    have hqd := Rat.num_div_den q
    rwa [div_eq_iff hden0] at hqd
  have ht : ((q.num.toNat : Nat) : Rat) = (q.num : Rat) := by
    exact_mod_cast congrArg (fun z : Int => (z : Rat)) (Int.toNat_of_nonneg hnum0)
  have hNcast : (N : Rat) = q * 10 ^ k := by
    rw [hN]
    push_cast [Nat.cast_div hdvd hden0]
    rw [ht]
    field_simp
    rw [hq]
    ring
  have htok : tokenize (String.mk (digitsOf (N / 10 ^ k) ++ '.' ::
      (padZeros (k - (digitsOf (N % 10 ^ k)).length) ++ digitsOf (N % 10 ^ k))))
      = .ok [.floatTok (((N / 10 ^ k : Nat) : Rat) + ((N % 10 ^ k : Nat) : Rat) / (10 : Rat) ^ k)] := by
    rw [tokenize_mk]
    exact tokenizeAux_floatLit _ _ _ k hk hF
  have hc : ((10 : Rat)) ^ k * ((N / 10 ^ k : Nat) : Rat) + ((N % 10 ^ k : Nat) : Rat) = (N : Rat) := by
    exact_mod_cast Nat.div_add_mod N (10 ^ k)
  have h10 : ((10 : Rat)) ^ k ≠ 0 := pow_ne_zero k (by norm_num)
  have hval : ((N / 10 ^ k : Nat) : Rat) + ((N % 10 ^ k : Nat) : Rat) / (10 : Rat) ^ k = q := by
    field_simp
    linarith [hc, hNcast]
  simp [safe_eval, parseExpr, htok, parseToks_floatTok, _eval, hval]

theorem litStr_roundTrip (v : PyVal) (s : String) (h : litStr v = some s) :
    safe_eval s [] = .ok v := by
  cases v with
  | int n =>
    simp only [litStr] at h
    by_cases h0 : 0 ≤ n
    · rw [if_pos h0] at h
      injection h with h
      subst h
      have htok : tokenize (String.mk (digitsOf n.toNat)) = .ok [.intTok n.toNat] := by
        rw [tokenize_mk]
        exact tokenizeAux_digitsOnly _ n.toNat
      simp [safe_eval, parseExpr, htok, parseToks_intTok, _eval, Int.toNat_of_nonneg h0]
    · rw [if_neg h0] at h
      exact absurd h (by simp)
  | float q =>
    simp only [litStr, floatStr] at h
    by_cases hneg : q < 0
    · rw [if_pos hneg] at h
      exact absurd h (by simp)
    rw [if_neg hneg] at h
    by_cases hrange : q = 0 ∨ ((1 : Rat) / 10000 ≤ q ∧ q < 10 ^ 16)
    swap
    · rw [if_pos hrange] at h
      exact absurd h (by simp)
    rw [if_neg (not_not_intro hrange)] at h
    by_cases h52 : (stripP 5 (stripP 2 q.den q.den).2 (stripP 2 q.den q.den).2).2 = 1
    swap
    · rw [if_neg h52] at h
      exact absurd h (by simp)
    rw [if_pos h52] at h
    injection h with h
    subst h
    have hprod2 := stripP_prod 2 q.den q.den
    have hprod5 := stripP_prod 5 (stripP 2 q.den q.den).2 (stripP 2 q.den q.den).2
    rw [h52, mul_one] at hprod5
    rw [hprod5] at hprod2
    set a := (stripP 2 q.den q.den).1 with hadef
    set b := (stripP 5 (stripP 2 q.den q.den).2 (stripP 2 q.den q.den).2).1 with hbdef
    set k := max (max a b) 1 with hkdef
    have hk : 1 ≤ k := le_max_right _ _
    have hak : a ≤ k := le_trans (le_max_left a b) (le_max_left _ 1)
    have hbk : b ≤ k := le_trans (le_max_right a b) (le_max_left _ 1)
    have hdvd : q.den ∣ 10 ^ k := by
      have h25 : (10 : Nat) ^ k = 2 ^ k * 5 ^ k := by
        calc (10 : Nat) ^ k = (2 * 5) ^ k := by norm_num
        _ = 2 ^ k * 5 ^ k := mul_pow 2 5 k
      rw [h25, hprod2]
      exact mul_dvd_mul (pow_dvd_pow 2 hak) (pow_dvd_pow 5 hbk)
    exact safe_eval_decimal q k hk (not_lt.mp hneg) hdvd
  | bool b => simp [litStr] at h
  | floatX => simp [litStr] at h
  | complexX => simp [litStr] at h

/-! ## Further operator-level helper lemmas -/

theorem pyDiv_zero_divisor (a b : PyVal) (hb : toQ b = some 0) :
    isZDE (pyDiv a b) = true := by
  simp [pyDiv, hb, isZDE]

theorem pyPow_neg_base_frac_exp (a b : Rat) (ha : a < 0) (hb : b.den ≠ 1) :
    pyPow (.float a) (.float b) = .ok .complexX := by
  have hz : toZ (.float a) = none := rfl
  simp [pyPow, isComplexV, isFloatXV, toQ, hz, qval, hb, ha]

theorem lookupVar_eval_ok (id : String) (env : Env) (q : Rat)
    (h : lookupVar id env = some q) : _eval (.name id) env = .ok (.float q) := by
  simp [_eval, h]

theorem lookupVar_eval_missing (id : String) (env : Env)
    (h : lookupVar id env = none) :
    _eval (.name id) env = .error (.valueError ("Use of undefined variable " ++ id)) := by
  simp [_eval, h]

/-! ## Claims -/

/-- C1: each of the disallowed-syntax inputs `__import__('os')`, `1; 2`,
`sin(1)` and `[1,2,3]` makes `safe_eval` raise `SyntaxError` or the
`ValueError` that models UnsupportedOperationError (never a numeric result),
and, structurally, no tree containing a non-whitelisted node ever evaluates
to a value, so no input can trigger behavior beyond the six arithmetic
operations. -/
theorem C1_rejects_disallowed_syntax :
    safe_eval impStr [] = .error (.valueError "Unsupported expression element") ∧
    safe_eval "1; 2" [] = .error (.syntaxError "invalid syntax") ∧
    safe_eval "sin(1)" [] = .error (.valueError "Unsupported expression element") ∧
    safe_eval "[1,2,3]" [] = .error (.valueError "Unsupported expression element") ∧
    (∀ (e : PyExpr) (env : Env), allowedExpr e = false → isOkE (_eval e env) = false) :=
  ⟨by rfl, by rfl, by rfl, by rfl, eval_disallowed⟩

/-- C1 witness: the whitelist theorem applied to the concrete disallowed
node `[1]` (an `ast.List`). -/
theorem C1_witness :
    isOkE (_eval (.listLit [.const (.intc 1)]) []) = false :=
  C1_rejects_disallowed_syntax.2.2.2.2 (.listLit [.const (.intc 1)]) [] rfl

/-- C2 counterexample: `evaluate("1/0")` does not return positive infinity —
it raises `ZeroDivisionError`, so the evaluation returns no value at all. -/
theorem C2_counterexample :
    safe_eval "1/0" [] = .error (.zeroDivisionError "division by zero") ∧
    isOkE (safe_eval "1/0" []) = false :=
  ⟨by rfl, by rfl⟩

/-- C2 (amended): division by zero is an error condition — `evaluate("1/0")`
raises `ZeroDivisionError` (Python number semantics), and every division
whose divisor is a tracked zero raises `ZeroDivisionError`; no IEEE-754
infinity is produced. -/
theorem C2_division_by_zero_raises :
    safe_eval "1/0" [] = .error (.zeroDivisionError "division by zero") ∧
    (∀ (a b : PyVal), toQ b = some 0 → isZDE (pyDiv a b) = true) :=
  ⟨by rfl, pyDiv_zero_divisor⟩

/-- C2 witness: the general part applied at `1 / 0.0`. -/
theorem C2_witness : isZDE (pyDiv (.int 1) (.float 0)) = true :=
  C2_division_by_zero_raises.2 (.int 1) (.float 0) rfl

/-- C3 counterexample: `evaluate("2^3^2")` is not `512` — the caret parses
as `ast.BitXor`, which is not in `_ALLOWED_OPERATORS`, so the call raises
`ValueError` and returns no value. -/
theorem C3_counterexample :
    safe_eval "2^3^2" [] = .error (.valueError "Operator BitXor is not allowed") ∧
    isOkE (safe_eval "2^3^2" []) = false :=
  ⟨by rfl, by rfl⟩

/-- C3 (amended): the power operator is `**`, and it is right-associative:
`evaluate("2**3**2") == 512 == 2**(3**2)`; the caret `^` is Python's bitwise
xor, a non-whitelisted operator, so `evaluate("2^3^2")` raises the
unsupported-operator `ValueError`. -/
theorem C3_power_double_star_right_assoc :
    safe_eval "2**3**2" [] = .ok (.int 512) ∧
    parseExpr "2**3**2" = .ok (.binOp .pow (.const (.intc 2))
      (.binOp .pow (.const (.intc 3)) (.const (.intc 2)))) ∧
    safe_eval "2^3^2" [] = .error (.valueError "Operator BitXor is not allowed") :=
  ⟨by rfl, by rfl, by rfl⟩

/-- C4: a bound variable reference evaluates to its bound value
(`evaluate("x+1", {"x": 4.0}) == 5.0`), and an unbound variable reference
fails with the undefined-variable `ValueError` carrying the variable's
name. -/
theorem C4_variable_binding_and_undefined :
    (∀ (id : String) (env : Env) (q : Rat), lookupVar id env = some q →
      _eval (.name id) env = .ok (.float q)) ∧
    (∀ (id : String) (env : Env), lookupVar id env = none →
      _eval (.name id) env = .error (.valueError ("Use of undefined variable " ++ id))) ∧
    safe_eval "x+1" [("x", 4)] = .ok (.float 5) ∧
    safe_eval "x+1" [] = .error (.valueError "Use of undefined variable x") :=
  ⟨lookupVar_eval_ok, lookupVar_eval_missing,
   by with_unfolding_all rfl, by rfl⟩

/-- C4 witness: the two quantified parts at the bindings `{"x": 4.0}` and
`{}`. -/
theorem C4_witness :
    _eval (.name "x") [("x", 4)] = .ok (.float 4) ∧
    _eval (.name "y") [] = .error (.valueError "Use of undefined variable y") :=
  ⟨C4_variable_binding_and_undefined.1 "x" [("x", 4)] 4 (by rfl),
   C4_variable_binding_and_undefined.2.1 "y" [] (by rfl)⟩

/-- C5: multiplication binds tighter than addition and subtraction is
left-associative: `evaluate("2+3*4") == 14`, `evaluate("2*3+4") == 10`,
`evaluate("10-3-2") == 5`, with the corresponding tree shapes. -/
theorem C5_precedence_left_assoc :
    safe_eval "2+3*4" [] = .ok (.int 14) ∧
    safe_eval "2*3+4" [] = .ok (.int 10) ∧
    safe_eval "10-3-2" [] = .ok (.int 5) ∧
    parseExpr "2+3*4" = .ok (.binOp .add (.const (.intc 2))
      (.binOp .mult (.const (.intc 3)) (.const (.intc 4)))) ∧
    parseExpr "10-3-2" = .ok (.binOp .sub
      (.binOp .sub (.const (.intc 10)) (.const (.intc 3))) (.const (.intc 2))) :=
  ⟨by rfl, by rfl, by rfl, by rfl, by rfl⟩

/-- C6: for every numeric literal value `v` whose `str(v)` rendering the
model captures (non-negative `int`; `float` that is a finite decimal in the
plain-format range), evaluating the rendering with an empty environment
returns `v` exactly. -/
theorem C6_literal_roundtrip :
    ∀ (v : PyVal) (s : String), litStr v = some s → safe_eval s [] = .ok v :=
  litStr_roundTrip

/-- C6 witness: the round trip at `v = 0.5` and `v = 512`. -/
theorem C6_witness :
    safe_eval "0.5" [] = .ok (.float (1 / 2)) ∧ safe_eval "512" [] = .ok (.int 512) :=
  ⟨C6_literal_roundtrip (.float (1 / 2)) "0.5" (by with_unfolding_all rfl),
   C6_literal_roundtrip (.int 512) "512" (by with_unfolding_all rfl)⟩

/-- C7 counterexample: `evaluate("(-8)**0.5")` does not surface as a
floating-point NaN or as a domain error — it succeeds and returns a
`complex` value, a kind of value the claim says can never appear. -/
theorem C7_counterexample :
    safe_eval "(-8)**0.5" [] = .ok .complexX ∧
    isFloatV .complexX = false ∧ isOkE (safe_eval "(-8)**0.5" []) = true :=
  ⟨by with_unfolding_all rfl, by rfl, by with_unfolding_all rfl⟩

/-- C7 (amended): a power whose result is not real returns a `complex`
value (Python 3 float-power convention), applied consistently: every
negative tracked float base raised to a fractional tracked float exponent
yields the complex kind, and `evaluate("(-8)**0.5")` succeeds with that
kind; with the caret spelling `(-8)^0.5` the xor operator is rejected with
the unsupported-operator `ValueError` instead. -/
theorem C7_nonreal_power_is_complex :
    safe_eval "(-8)**0.5" [] = .ok .complexX ∧
    (∀ (a b : Rat), a < 0 → b.den ≠ 1 → pyPow (.float a) (.float b) = .ok .complexX) ∧
    safe_eval "(-8)^0.5" [] = .error (.valueError "Operator BitXor is not allowed") :=
  ⟨by with_unfolding_all rfl, pyPow_neg_base_frac_exp, by with_unfolding_all rfl⟩

/-- C7 witness: the quantified part at base `-8`, exponent `1/2`. -/
theorem C7_witness : pyPow (.float (-8)) (.float (1 / 2)) = .ok .complexX :=
  C7_nonreal_power_is_complex.2.1 (-8) (1 / 2) (by norm_num)
    (by norm_num)

/-- C8: evaluation is deterministic and stateless — with the logger sink
made explicit, the result of `safe_eval` does not depend on the accumulated
log, equals the pure function of (expression, environment), and re-running
the same call after a first run (threading the log) returns the identical
result. -/
theorem C8_deterministic_stateless :
    ∀ (s : String) (env : Env) (log : List String),
      (safe_evalSt s env log).1 = safe_eval s env ∧
      (safe_evalSt s env (safe_evalSt s env log).2.2).1 = (safe_evalSt s env log).1 :=
  fun s env log =>
    ⟨safe_evalSt_fst s env log,
     by rw [safe_evalSt_fst, safe_evalSt_fst]⟩

/-- C9: evaluation never mutates the caller's variable dictionary — the
environment threaded through the recursion comes back unchanged whether the
call returns a value or fails. -/
theorem C9_environment_unchanged :
    ∀ (s : String) (env : Env) (log : List String),
      (safe_evalSt s env log).2.1 = env :=
  safe_evalSt_env

/-- C10: the keywords `True` and `False` are accepted as numeric constants
(`bool` passes the `isinstance(value, (int, float))` check): they evaluate
to the booleans, whose numeric value is 1 and 0 — so `True+1` evaluates to
the integer 2. -/
theorem C10_bool_constants_numeric :
    safe_eval "True" [] = .ok (.bool true) ∧
    safe_eval "False" [] = .ok (.bool false) ∧
    qval (.bool true) = 1 ∧ qval (.bool false) = 0 ∧
    toZ (.bool true) = some 1 ∧ toZ (.bool false) = some 0 ∧
    safe_eval "True+1" [] = .ok (.int 2) :=
  ⟨by rfl, by rfl, by rfl, by rfl, by rfl, by rfl, by rfl⟩

end DanCalc
